import Mathlib

/-!
# Verification of the `ai_rs` streaming-decode subsystem

A shallow embedding of the incremental response streaming subsystem of the
`ai_rs` client library (the `stream_completion` pump of `src/ollama/client.rs`,
the `stream_content_with_request` pump of `src/gemini/client.rs`, the
non-streaming `generate_completion` merge path, and the data types of
`src/ollama/types.rs` / `src/gemini/types.rs`), together with theorems that
settle the specification's claims about it.

The JSON layer models `serde_json::from_str` for the derived `Deserialize`
implementations: a full syntactic JSON parser over the record text, followed
by typed field extraction (required fields must be present and well-typed,
`Option` fields accept absence or `null`, unknown fields are ignored).
Numbers with a fraction or exponent part are kept abstract (`numNonInt`)
since every integer-typed field rejects them, mirroring serde's rejection of
floating-point values for integer targets.  Error *messages* are not
reproduced verbatim; only the success/failure classification and the typed
payload are, which is what the stream events expose.
-/

/-- A parsed JSON value.  `num i` is a number written with integer syntax
(no fraction, no exponent); `numNonInt` is any other syntactically valid
JSON number (such values are rejected by every integer-typed field of the
response schemas, so their magnitude is irrelevant). -/
inductive Json where
  | null : Json
  | bool (b : Bool) : Json
  | num (i : Int) : Json
  | numNonInt : Json
  | str (s : String) : Json
  | arr (elems : List Json) : Json
  | obj (fields : List (String × Json)) : Json
deriving Repr, Inhabited

/-- JSON inter-token whitespace. -/
def isJsonWs (c : Char) : Bool :=
  c = ' ' || c = '\t' || c = '\n' || c = '\r'

/-- Drop leading JSON whitespace. -/
def skipWs : List Char → List Char
  | [] => []
  | c :: cs => if isJsonWs c then skipWs cs else c :: cs

/-- Value of a hexadecimal digit. -/
def hexVal (c : Char) : Option Nat :=
  if '0' ≤ c ∧ c ≤ '9' then some (c.toNat - '0'.toNat)
  else if 'a' ≤ c ∧ c ≤ 'f' then some (c.toNat - 'a'.toNat + 10)
  else if 'A' ≤ c ∧ c ≤ 'F' then some (c.toNat - 'A'.toNat + 10)
  else none

/-- Decode one escape sequence (the characters after the backslash),
returning the decoded character and the rest of the input. -/
def parseEscape : List Char → Except String (Char × List Char)
  | [] => .error "eof in escape"
  | c :: cs =>
    match c with
    | '"' => .ok ('"', cs)
    | '\\' => .ok ('\\', cs)
    | '/' => .ok ('/', cs)
    | 'b' => .ok ('\x08', cs)
    | 'f' => .ok ('\x0c', cs)
    | 'n' => .ok ('\n', cs)
    | 'r' => .ok ('\r', cs)
    | 't' => .ok ('\t', cs)
    | 'u' =>
      match cs with
      | h1 :: h2 :: h3 :: h4 :: rest =>
        match hexVal h1, hexVal h2, hexVal h3, hexVal h4 with
        | some a, some b, some c, some d =>
          .ok (Char.ofNat (((a * 16 + b) * 16 + c) * 16 + d), rest)
        | _, _, _, _ => .error "bad unicode escape"
      | _ => .error "eof in unicode escape"
    | _ => .error "bad escape"

/-- Parse the body of a JSON string (the opening quote already consumed),
up to and including the closing quote.  Raw control characters are
rejected, as serde_json rejects them. -/
def parseStringBody (fuel : Nat) (input : List Char) :
    Except String (List Char × List Char) :=
  match fuel with
  | 0 => .error "out of fuel"
  | fuel + 1 =>
    match input with
    | [] => .error "eof in string"
    | '"' :: rest => .ok ([], rest)
    | '\\' :: rest =>
      match parseEscape rest with
      | .error e => .error e
      | .ok (c, rest') =>
        match parseStringBody fuel rest' with
        | .error e => .error e
        | .ok (cs, rem) => .ok (c :: cs, rem)
    | c :: rest =>
      if c.toNat < 0x20 then .error "control character in string"
      else
        match parseStringBody fuel rest with
        | .error e => .error e
        | .ok (cs, rem) => .ok (c :: cs, rem)

/-- Longest prefix of decimal digits, and the rest. -/
def takeDigits : List Char → (List Char × List Char)
  | [] => ([], [])
  | c :: cs =>
    if '0' ≤ c ∧ c ≤ '9' then
      let (ds, rest) := takeDigits cs
      (c :: ds, rest)
    else ([], c :: cs)

/-- Numeric value of a digit list (most significant first). -/
def digitsToNat : List Char → Nat
  | ds => ds.foldl (fun acc c => acc * 10 + (c.toNat - '0'.toNat)) 0

/-- Parse a JSON number (grammar `-?(0|[1-9][0-9]*)(\.[0-9]+)?([eE][+-]?[0-9]+)?`).
A number with a fraction or exponent part becomes `Json.numNonInt`. -/
def parseNumber (input : List Char) : Except String (Json × List Char) :=
  let (neg, afterSign) :=
    match input with
    | '-' :: cs => (true, cs)
    | cs => (false, cs)
  match takeDigits afterSign with
  | ([], _) => .error "expected digit"
  | (intDigits, rest1) =>
    if intDigits.length > 1 ∧ intDigits.head? = some '0' then
      .error "leading zero"
    else
      let (isInt1, rest2) :=
        match rest1 with
        | '.' :: cs =>
          match takeDigits cs with
          | ([], _) => (none, rest1)  -- signals error below
          | (_, r) => (some false, r)
        | _ => (some true, rest1)
      match isInt1 with
      | none => .error "expected digit after decimal point"
      | some isInt =>
        match rest2 with
        | 'e' :: cs | 'E' :: cs =>
          let cs' := match cs with
            | '+' :: t => t
            | '-' :: t => t
            | t => t
          match takeDigits cs' with
          | ([], _) => .error "expected digit in exponent"
          | (_, r) => .ok (Json.numNonInt, r)
        | _ =>
          if isInt then
            let n : Int := Int.ofNat (digitsToNat intDigits)
            .ok (Json.num (if neg then -n else n), rest2)
          else .ok (Json.numNonInt, rest2)

/-- Check that `pre` is a prefix of `l`, returning the remainder. -/
def stripPrefixChars (pre l : List Char) : Option (List Char) :=
  match pre, l with
  | [], rest => some rest
  | _, [] => none
  | p :: ps, c :: cs => if p = c then stripPrefixChars ps cs else none

/-- What the recursive JSON parser is currently parsing: a value, the field
list of an object, or the element list of an array (`first` is true while no
field/element has been consumed yet, so the closing bracket may follow
immediately). -/
inductive PMode where
  | value : PMode
  | objFields (first : Bool) : PMode
  | arrElems (first : Bool) : PMode
deriving Repr

/-- The recursive core of the JSON parser, structurally recursive on `fuel`
(one unit of fuel per grammar production, so `input.length + 1` always
suffices).  Leading whitespace is assumed already skipped. -/
def parseCore : Nat → PMode → List Char → Except String (Json × List Char)
  | 0, _, _ => .error "out of fuel"
  | fuel + 1, .value, input =>
    match input with
    | [] => .error "eof"
    | '{' :: rest => parseCore fuel (.objFields true) (skipWs rest)
    | '[' :: rest => parseCore fuel (.arrElems true) (skipWs rest)
    | '"' :: rest =>
      match parseStringBody (fuel + 1) rest with
      | .error e => .error e
      | .ok (cs, rem) => .ok (Json.str (String.mk cs), rem)
    | c :: _ =>
      match stripPrefixChars ['t', 'r', 'u', 'e'] input with
      | some rest => .ok (Json.bool true, rest)
      | none =>
      match stripPrefixChars ['f', 'a', 'l', 's', 'e'] input with
      | some rest => .ok (Json.bool false, rest)
      | none =>
      match stripPrefixChars ['n', 'u', 'l', 'l'] input with
      | some rest => .ok (Json.null, rest)
      | none =>
        if c = '-' ∨ ('0' ≤ c ∧ c ≤ '9') then parseNumber input
        else .error "unexpected character"
  | fuel + 1, .objFields first, input =>
    match input with
    | '}' :: rest =>
      if first then .ok (Json.obj [], rest) else .error "trailing comma"
    | '"' :: rest =>
      match parseStringBody (fuel + 1) rest with
      | .error e => .error e
      | .ok (keyChars, afterKey) =>
        match skipWs afterKey with
        | ':' :: afterColon =>
          match parseCore fuel .value (skipWs afterColon) with
          | .error e => .error e
          | .ok (v, afterVal) =>
            match skipWs afterVal with
            | ',' :: afterComma =>
              match parseCore fuel (.objFields false) (skipWs afterComma) with
              | .error e => .error e
              | .ok (Json.obj fs, rem) =>
                .ok (Json.obj ((String.mk keyChars, v) :: fs), rem)
              | .ok _ => .error "impossible"
            | '}' :: rem => .ok (Json.obj [(String.mk keyChars, v)], rem)
            | _ => .error "expected comma or closing brace"
        | _ => .error "expected colon"
    | _ => .error "expected key or closing brace"
  | fuel + 1, .arrElems first, input =>
    match input with
    | ']' :: rest =>
      if first then .ok (Json.arr [], rest) else .error "trailing comma"
    | _ =>
      match parseCore fuel .value input with
      | .error e => .error e
      | .ok (v, afterVal) =>
        match skipWs afterVal with
        | ',' :: afterComma =>
          match parseCore fuel (.arrElems false) (skipWs afterComma) with
          | .error e => .error e
          | .ok (Json.arr vs, rem) => .ok (Json.arr (v :: vs), rem)
          | .ok _ => .error "impossible"
        | ']' :: rem => .ok (Json.arr [v], rem)
        | _ => .error "expected comma or closing bracket"

/-- Parse a complete JSON document: one value, possibly surrounded by
whitespace, consuming the whole input — as `serde_json::from_str` requires. -/
def jsonParse (s : String) : Except String Json :=
  match parseCore (s.length + 1) .value (skipWs s.toList) with
  | .error e => .error e
  | .ok (v, rest) =>
    match skipWs rest with
    | [] => .ok v
    | _ => .error "trailing characters"

/-- Whether an `Except` computation succeeded. -/
def exceptIsOk {ε α : Type} : Except ε α → Bool
  | .ok _ => true
  | .error _ => false

/-! ## Typed deserialization (model of the derived `Deserialize` impls)

serde's derived struct deserialization: required fields must be present with
a value of the right type; `Option<T>` fields accept absence or `null` as
`None`; unknown fields are ignored (no `deny_unknown_fields` attribute is
used in the source). -/

/-- First occurrence of a key among an object's fields. -/
def lookupField : List (String × Json) → String → Option Json
  | [], _ => none
  | (k, v) :: rest, key => if k = key then some v else lookupField rest key

/-- Decode a JSON string. -/
def jString : Json → Except String String
  | .str s => .ok s
  | _ => .error "invalid type: expected a string"

/-- Decode a JSON boolean. -/
def jBool : Json → Except String Bool
  | .bool b => .ok b
  | _ => .error "invalid type: expected a boolean"

/-- Decode a `u64` field: a number of integer syntax within `[0, 2^64)`.
serde rejects negative or fractional values for unsigned targets. -/
def jU64 : Json → Except String Nat
  | .num i => if 0 ≤ i ∧ i < (2 : Int) ^ 64 then .ok i.toNat
              else .error "invalid value: out of range for u64"
  | _ => .error "invalid type: expected u64"

/-- Decode a `u32` field. -/
def jU32 : Json → Except String Nat
  | .num i => if 0 ≤ i ∧ i < (2 : Int) ^ 32 then .ok i.toNat
              else .error "invalid value: out of range for u32"
  | _ => .error "invalid type: expected u32"

/-- Decode an `i32` field. -/
def jI32 : Json → Except String Int
  | .num i => if -(2 : Int) ^ 31 ≤ i ∧ i < (2 : Int) ^ 31 then .ok i
              else .error "invalid value: out of range for i32"
  | _ => .error "invalid type: expected i32"

/-- Decode a JSON array elementwise (`Vec<T>`). -/
def jList {α : Type} (dec : Json → Except String α) :
    Json → Except String (List α)
  | .arr xs => xs.mapM dec
  | _ => .error "invalid type: expected an array"

/-- A required struct field: must be present; `null` only passes if the
element decoder accepts it. -/
def fieldReq {α : Type} (fs : List (String × Json)) (key : String)
    (dec : Json → Except String α) : Except String α :=
  match lookupField fs key with
  | none => .error ("missing field " ++ key)
  | some v => dec v

/-- An `Option<T>` struct field: absent or `null` is `None`; any other value
must decode. -/
def fieldOpt {α : Type} (fs : List (String × Json)) (key : String)
    (dec : Json → Except String α) : Except String (Option α) :=
  match lookupField fs key with
  | none => .ok none
  | some .null => .ok none
  | some v =>
    match dec v with
    | .error e => .error e
    | .ok a => .ok (some a)

/-! ## Ollama response schema (`src/ollama/types.rs`) -/

/-- The `GenerateResponse` struct of `src/ollama/types.rs` (u64/u32 fields as `Nat`,
i32 as `Int`). -/
structure GenerateResponse where
  model : String
  created_at : String
  response : String
  done : Bool
  done_reason : Option String
  context : Option (List Int)
  total_duration : Option Nat
  load_duration : Option Nat
  prompt_eval_count : Option Nat
  prompt_eval_duration : Option Nat
  eval_count : Option Nat
  eval_duration : Option Nat
deriving Repr, DecidableEq

/-- Derived `Deserialize` for `GenerateResponse`:
`model`, `created_at`, `response`, `done` required; the rest optional. -/
def GenerateResponse.fromJson (j : Json) : Except String GenerateResponse :=
  match j with
  | .obj fs => do
    let model ← fieldReq fs "model" jString
    let created_at ← fieldReq fs "created_at" jString
    let response ← fieldReq fs "response" jString
    let done ← fieldReq fs "done" jBool
    let done_reason ← fieldOpt fs "done_reason" jString
    let context ← fieldOpt fs "context" (jList jI32)
    let total_duration ← fieldOpt fs "total_duration" jU64
    let load_duration ← fieldOpt fs "load_duration" jU64
    let prompt_eval_count ← fieldOpt fs "prompt_eval_count" jU32
    let prompt_eval_duration ← fieldOpt fs "prompt_eval_duration" jU64
    let eval_count ← fieldOpt fs "eval_count" jU32
    let eval_duration ← fieldOpt fs "eval_duration" jU64
    return { model, created_at, response, done, done_reason, context,
             total_duration, load_duration, prompt_eval_count,
             prompt_eval_duration, eval_count, eval_duration }
  | _ => .error "invalid type: expected a map"

/-- Model of `serde_json::from_str::<GenerateResponse>`. -/
def ollamaFromStr (s : String) : Except String GenerateResponse :=
  match jsonParse s with
  | .error e => .error e
  | .ok j => GenerateResponse.fromJson j

/-- Shorthand for a `GenerateResponse` with the four required fields set and
every optional field absent. -/
def mkGR (model created_at response : String) (done : Bool) :
    GenerateResponse :=
  { model, created_at, response, done,
    done_reason := none, context := none, total_duration := none,
    load_duration := none, prompt_eval_count := none,
    prompt_eval_duration := none, eval_count := none, eval_duration := none }

/-! ## Gemini response schema (`src/gemini/types.rs`)

Wrapped in a `Gemini` namespace because `Part` would collide with a
Mathlib name. -/

namespace Gemini

/-- The `InlineData` struct of `src/gemini/types.rs`. -/
structure InlineData where
  mime_type : String
  data : String
deriving Repr, DecidableEq

/-- The `Part` struct of `src/gemini/types.rs`. -/
structure Part where
  text : Option String
  inline_data : Option InlineData
deriving Repr, DecidableEq

/-- The `Content` struct of `src/gemini/types.rs`. -/
structure Content where
  role : String
  parts : List Part
deriving Repr, DecidableEq

/-- The `SafetyRating` struct of `src/gemini/types.rs`. -/
structure SafetyRating where
  category : String
  probability : String
deriving Repr, DecidableEq

/-- The `Candidate` struct of `src/gemini/types.rs`. -/
structure Candidate where
  content : Content
  finish_reason : Option String
  index : Int
  safety_ratings : Option (List SafetyRating)
deriving Repr, DecidableEq

/-- The `PromptFeedback` struct of `src/gemini/types.rs`. -/
structure PromptFeedback where
  safety_ratings : List SafetyRating
deriving Repr, DecidableEq

/-- The `UsageMetadata` struct of `src/gemini/types.rs`. -/
structure UsageMetadata where
  prompt_token_count : Int
  candidates_token_count : Int
  total_token_count : Int
deriving Repr, DecidableEq

/-- The `StreamGenerateContentResponse` struct of `src/gemini/types.rs`. -/
structure StreamGenerateContentResponse where
  candidates : List Candidate
  prompt_feedback : Option PromptFeedback
  usage_metadata : Option UsageMetadata
deriving Repr, DecidableEq

/-- Derived `Deserialize` for `InlineData`. -/
def InlineData.fromJson (j : Json) : Except String InlineData :=
  match j with
  | .obj fs => do
    let mime_type ← fieldReq fs "mime_type" jString
    let data ← fieldReq fs "data" jString
    return { mime_type, data }
  | _ => .error "invalid type: expected a map"

/-- Derived `Deserialize` for `Part`. -/
def Part.fromJson (j : Json) : Except String Part :=
  match j with
  | .obj fs => do
    let text ← fieldOpt fs "text" jString
    let inline_data ← fieldOpt fs "inline_data" InlineData.fromJson
    return { text, inline_data }
  | _ => .error "invalid type: expected a map"

/-- Derived `Deserialize` for `Content`. -/
def Content.fromJson (j : Json) : Except String Content :=
  match j with
  | .obj fs => do
    let role ← fieldReq fs "role" jString
    let parts ← fieldReq fs "parts" (jList Part.fromJson)
    return { role, parts }
  | _ => .error "invalid type: expected a map"

/-- Derived `Deserialize` for `SafetyRating`. -/
def SafetyRating.fromJson (j : Json) : Except String SafetyRating :=
  match j with
  | .obj fs => do
    let category ← fieldReq fs "category" jString
    let probability ← fieldReq fs "probability" jString
    return { category, probability }
  | _ => .error "invalid type: expected a map"

/-- Derived `Deserialize` for `Candidate`. -/
def Candidate.fromJson (j : Json) : Except String Candidate :=
  match j with
  | .obj fs => do
    let content ← fieldReq fs "content" Content.fromJson
    let finish_reason ← fieldOpt fs "finish_reason" jString
    let index ← fieldReq fs "index" jI32
    let safety_ratings ← fieldOpt fs "safety_ratings" (jList SafetyRating.fromJson)
    return { content, finish_reason, index, safety_ratings }
  | _ => .error "invalid type: expected a map"

/-- Derived `Deserialize` for `PromptFeedback`. -/
def PromptFeedback.fromJson (j : Json) : Except String PromptFeedback :=
  match j with
  | .obj fs => do
    let safety_ratings ← fieldReq fs "safety_ratings" (jList SafetyRating.fromJson)
    return { safety_ratings }
  | _ => .error "invalid type: expected a map"

/-- Derived `Deserialize` for `UsageMetadata`. -/
def UsageMetadata.fromJson (j : Json) : Except String UsageMetadata :=
  match j with
  | .obj fs => do
    let prompt_token_count ← fieldReq fs "prompt_token_count" jI32
    let candidates_token_count ← fieldReq fs "candidates_token_count" jI32
    let total_token_count ← fieldReq fs "total_token_count" jI32
    return { prompt_token_count, candidates_token_count, total_token_count }
  | _ => .error "invalid type: expected a map"

/-- Derived `Deserialize` for `StreamGenerateContentResponse`. -/
def StreamGenerateContentResponse.fromJson (j : Json) :
    Except String StreamGenerateContentResponse :=
  match j with
  | .obj fs => do
    let candidates ← fieldReq fs "candidates" (jList Candidate.fromJson)
    let prompt_feedback ← fieldOpt fs "prompt_feedback" PromptFeedback.fromJson
    let usage_metadata ← fieldOpt fs "usage_metadata" UsageMetadata.fromJson
    return { candidates, prompt_feedback, usage_metadata }
  | _ => .error "invalid type: expected a map"

end Gemini

/-- Model of `serde_json::from_str::<StreamGenerateContentResponse>`. -/
def geminiFromStr (s : String) :
    Except String Gemini.StreamGenerateContentResponse :=
  match jsonParse s with
  | .error e => .error e
  | .ok j => Gemini.StreamGenerateContentResponse.fromJson j

/-- Shorthand for a single-candidate, single-text-part stream record. -/
def mkSGCR (role text : String) (index : Int) :
    Gemini.StreamGenerateContentResponse :=
  { candidates := [{ content := { role, parts := [{ text := some text, inline_data := none }] },
                     finish_reason := none, index, safety_ratings := none }],
    prompt_feedback := none, usage_metadata := none }

/-! ## Rust string primitives used by the pumps -/

/-- Split a character list at `'\n'`, keeping empty segments
(`splitNl "a\nb" = [[a],[b]]`, `splitNl "" = [[]]`). -/
def splitNl : List Char → List (List Char)
  | [] => [[]]
  | c :: rest =>
    if c = '\n' then [] :: splitNl rest
    else
      match splitNl rest with
      | l :: ls => (c :: l) :: ls
      | [] => [[c]]

/-- Strip one trailing `'\r'` (the first half of a `"\r\n"` line ending). -/
def stripCr (l : List Char) : List Char :=
  if l.getLast? = some '\r' then l.dropLast else l

/-- Rust `str::lines` on a character list: split at `'\n'`; every segment
except the last was `'\n'`-terminated, so it loses one trailing `'\r'`;
a final empty segment (the input ended with `'\n'`, or was empty) yields no
line, while a final non-empty segment is yielded as-is (an unterminated
final line keeps a bare trailing `'\r'`). -/
def rustLinesChars (cs : List Char) : List (List Char) :=
  let segs := splitNl cs
  let head := (segs.dropLast).map stripCr
  match segs.getLast? with
  | none => head
  | some [] => head
  | some last => head ++ [last]

/-- Rust `str::lines`. -/
def rustLines (s : String) : List String :=
  (rustLinesChars s.toList).map String.mk

/-- Rust `char::is_whitespace`: the Unicode `White_Space` property. -/
def rustIsWhitespace (c : Char) : Bool :=
  let n := c.toNat
  (0x9 ≤ n && n ≤ 0xD) || n = 0x20 || n = 0x85 || n = 0xA0 || n = 0x1680 ||
  (0x2000 ≤ n && n ≤ 0x200A) || n = 0x2028 || n = 0x2029 || n = 0x202F ||
  n = 0x205F || n = 0x3000

/-- Rust `str::trim` on a character list. -/
def rustTrimChars (cs : List Char) : List Char :=
  ((cs.dropWhile rustIsWhitespace).reverse.dropWhile rustIsWhitespace).reverse

/-- Rust `str::trim`. -/
def rustTrim (s : String) : String :=
  String.mk (rustTrimChars s.toList)

/-- Rust `line.starts_with("data: ")`. -/
def hasDataTag (s : String) : Bool :=
  (stripPrefixChars "data: ".toList s.toList).isSome

/-- Rust `&line[6..]` applied after a successful `starts_with("data: ")`
check (the prefix is six one-byte characters, so byte offset 6 is the
seventh character). -/
def afterDataTag (s : String) : String :=
  String.mk (s.toList.drop 6)

/-- The payload a Gemini line contributes after envelope stripping:
`if line.starts_with("data: ") { &line[6..] } else { line }`. -/
def geminiPayload (line : String) : String :=
  if hasDataTag line then afterDataTag line else line

/-! ## Client error types -/

/-- The `OllamaClientError` enum of `src/ollama/client.rs`; the wrapped
`reqwest::Error` / `serde_json::Error` values are modelled by their
message strings. -/
inductive OllamaClientError where
  | RequestError (msg : String) : OllamaClientError
  | NetworkError (msg : String) : OllamaClientError
  | ParseError (msg : String) : OllamaClientError
deriving Repr, DecidableEq

/-- The `GeminiClientError` enum of `src/gemini/client.rs`. -/
inductive GeminiClientError where
  | RequestError (msg : String) : GeminiClientError
  | NetworkError (msg : String) : GeminiClientError
  | ParseError (msg : String) : GeminiClientError
  | ApiError (msg : String) : GeminiClientError
deriving Repr, DecidableEq

/-! ## Transport and consumer-channel model

The transport (`response.bytes_stream()`) delivers a finite sequence of
items, each either a byte chunk or a `reqwest` stream error; the pump's
`while let Some(..) = stream.next().await` walks this list in order, and
the number of list elements it inspects is the number of transport reads
it performs.

The mpsc channel's consumer side is modelled by a send budget: `none`
means the receiver is never dropped (every `tx.send` succeeds); `some k`
means the receiver is dropped after it has accepted `k` sends, so the
first `k` sends succeed and every later send fails — the abstraction of a
consumer that disconnects mid-stream.  A successful send delivers its
event to the consumer-facing sequence. -/

/-- The consumer's remaining send budget. -/
abbrev Cap := Option Nat

/-- Does a `tx.send` succeed under budget `cap`? -/
def sendOk : Cap → Bool
  | none => true
  | some 0 => false
  | some (_ + 1) => true

/-- Budget after a successful send. -/
def sendDec : Cap → Cap
  | none => none
  | some 0 => some 0
  | some (k + 1) => some k

/-- One transport item for the Ollama pump.  `chunk utf8` is a received
byte chunk, represented by the outcome of `String::from_utf8(chunk.to_vec())`
on it (`some s` when the bytes are valid UTF-8, `none` otherwise);
`err msg` is a transport-level stream error. -/
inductive OChunk where
  | chunk (utf8 : Option String) : OChunk
  | err (msg : String) : OChunk
deriving Repr, DecidableEq

/-- One transport item for the Gemini pump, whose `from_utf8_lossy`
conversion always produces text. -/
inductive GChunk where
  | chunk (s : String) : GChunk
  | err (msg : String) : GChunk
deriving Repr, DecidableEq

/-! ## The Ollama stream pump (`stream_completion`, `src/ollama/client.rs`
lines 232–271) -/

/-- The inner `for line in chunk_str.lines()` loop of `stream_completion`:
empty lines are skipped (`line.is_empty()`); every other line is parsed
with `serde_json::from_str::<GenerateResponse>`, and the result (`Ok` or
`Err(ParseError)`) is sent to the channel; a failed send `break`s — which
abandons only the remainder of *this* chunk's lines.  Returns the events
actually delivered to the consumer and the remaining send budget. -/
def ollamaLineLoop :
    List String → Cap →
    List (Except OllamaClientError GenerateResponse) × Cap
  | [], cap => ([], cap)
  | line :: rest, cap =>
    if line = "" then ollamaLineLoop rest cap
    else
      let item : Except OllamaClientError GenerateResponse :=
        match ollamaFromStr line with
        | .ok r => .ok r
        | .error e => .error (.ParseError e)
      if sendOk cap then
        let (es, cap') := ollamaLineLoop rest (sendDec cap)
        (item :: es, cap')
      else
        ([], cap)

/-- The spawned pump task of `stream_completion`: the
`while let Some(chunk_result) = stream.next().await` loop.  A valid-UTF-8
chunk goes through the line loop; an invalid-UTF-8 chunk is silently
skipped (`if let Ok(chunk_str) = ...`); a transport error sends one
`NetworkError` event (its send result discarded) and `break`s the while
loop.  Returns the delivered events and the number of transport reads. -/
def ollamaPump :
    List OChunk → Cap →
    List (Except OllamaClientError GenerateResponse) × Nat
  | [], _ => ([], 0)
  | OChunk.chunk utf8 :: rest, cap =>
    let (es, cap') :=
      match utf8 with
      | some s => ollamaLineLoop (rustLines s) cap
      | none => ([], cap)
    let (es', n) := ollamaPump rest cap'
    (es ++ es', n + 1)
  | OChunk.err m :: _, cap =>
    ((if sendOk cap then [.error (.NetworkError m)] else []), 1)

/-! ## The Gemini stream pump (`stream_content_with_request`,
`src/gemini/client.rs` lines 239–294) -/

/-- The inner `for line in chunk_str.lines()` loop of
`stream_content_with_request`: whitespace-only lines are skipped
(`line.trim().is_empty()`); a `"data: "` envelope prefix is stripped; a
line whose stripped payload trims to `"[DONE]"` `break`s — abandoning the
remainder of *this* chunk's lines without emitting anything; every other
line is parsed with `serde_json::from_str::<StreamGenerateContentResponse>`
and the result sent; a failed send `break`s likewise. -/
def geminiLineLoop :
    List String → Cap →
    List (Except GeminiClientError Gemini.StreamGenerateContentResponse) × Cap
  | [], cap => ([], cap)
  | line :: rest, cap =>
    if rustTrim line = "" then geminiLineLoop rest cap
    else
      let json_str := geminiPayload line
      if rustTrim json_str = "[DONE]" then ([], cap)
      else
        let item : Except GeminiClientError Gemini.StreamGenerateContentResponse :=
          match geminiFromStr json_str with
          | .ok r => .ok r
          | .error e => .error (.ParseError e)
        if sendOk cap then
          let (es, cap') := geminiLineLoop rest (sendDec cap)
          (item :: es, cap')
        else
          ([], cap)

/-- The spawned pump task of `stream_content_with_request`: chunks are
decoded with `from_utf8_lossy` and fed to the line loop; a transport error
sends one `NetworkError` event (its send result only logged) and `break`s
the while loop.  Returns the delivered events and the number of transport
reads. -/
def geminiPump :
    List GChunk → Cap →
    List (Except GeminiClientError Gemini.StreamGenerateContentResponse) × Nat
  | [], _ => ([], 0)
  | GChunk.chunk s :: rest, cap =>
    let (es, cap') := geminiLineLoop (rustLines s) cap
    let (es', n) := geminiPump rest cap'
    (es ++ es', n + 1)
  | GChunk.err m :: _, cap =>
    ((if sendOk cap then [.error (.NetworkError m)] else []), 1)

/-! ## The non-streaming merge path (`generate_completion`,
`src/ollama/client.rs` lines 143–172, and `GenerateResponse::merge`,
`src/ollama/types.rs` lines 53–64) -/

/-- Model of `GenerateResponse::merge`: append the other response's text, take the
other's `done` flag, and for each optional field prefer the other's value
when present (`other.field.or(self.field)`). -/
def GenerateResponse.merge (s other : GenerateResponse) : GenerateResponse :=
  { s with
    response := s.response ++ other.response
    done := other.done
    done_reason := other.done_reason.orElse fun _ => s.done_reason
    context := other.context.orElse fun _ => s.context
    total_duration := other.total_duration.orElse fun _ => s.total_duration
    load_duration := other.load_duration.orElse fun _ => s.load_duration
    prompt_eval_count := other.prompt_eval_count.orElse fun _ => s.prompt_eval_count
    prompt_eval_duration := other.prompt_eval_duration.orElse fun _ => s.prompt_eval_duration
    eval_count := other.eval_count.orElse fun _ => s.eval_count
    eval_duration := other.eval_duration.orElse fun _ => s.eval_duration }

/-- The `for line in response_text.lines()` accumulation loop of
`generate_completion`: each line must parse (`?` propagates the first
parse failure); the first parsed record becomes the accumulator and every
later one is merged into it. -/
def generateFold :
    List String → Option GenerateResponse →
    Except String (Option GenerateResponse)
  | [], acc => .ok acc
  | line :: rest, acc =>
    match ollamaFromStr line with
    | .error e => .error e
    | .ok r =>
      generateFold rest (some (match acc with
        | some existing => existing.merge r
        | none => r))

/-- The success-status body handling of `generate_completion`: split the
body into lines, parse and merge them all, and fail with `ParseError` if
no record was found (or with the first line's parse error). -/
def generate_completion_body (response_text : String) :
    Except OllamaClientError GenerateResponse :=
  match generateFold (rustLines response_text) none with
  | .error e => .error (.ParseError e)
  | .ok none =>
    .error (.ParseError "No valid JSON objects found in response")
  | .ok (some r) => .ok r

/-! ## The streaming entry-point handshake

Both streaming entry points first issue the HTTP request.  `send().await?`
propagates a network-level failure as a `NetworkError`; a response with a
non-success status makes the entry point read the body and return
`Err(RequestError(body))` immediately, producing no stream; a success
status produces the live `ReceiverStream` backed by the pump over the
response's byte stream. -/

/-- The outcome of the initial HTTP exchange, as the entry point observes
it: either the `send()` call itself failed, or a response arrived with a
success flag (`status().is_success()`), a body text, and (when streaming
begins) a byte stream.  The byte stream is represented by the transport
chunk list the pump would consume. -/
inductive Handshake (χ : Type) where
  | netFail (msg : String) : Handshake χ
  | response (is_success : Bool) (body : String) (chunks : List χ) : Handshake χ
deriving Repr, DecidableEq

/-- Model of `stream_completion` (`src/ollama/client.rs` lines 211–274) up to the
point where it either returns an error or spawns the pump: returns the
transport that the spawned pump will consume (i.e. the live stream). -/
def stream_completion_start (h : Handshake OChunk) :
    Except OllamaClientError (List OChunk) :=
  match h with
  | .netFail m => .error (.NetworkError m)
  | .response is_success body chunks =>
    if is_success then .ok chunks
    else .error (.RequestError body)

/-- Model of `stream_content_with_request` (`src/gemini/client.rs` lines 227–301)
up to the same point. -/
def stream_content_with_request_start (h : Handshake GChunk) :
    Except GeminiClientError (List GChunk) :=
  match h with
  | .netFail m => .error (.NetworkError m)
  | .response is_success body chunks =>
    if is_success then .ok chunks
    else .error (.RequestError body)

/-! ## Concrete record texts and event classifiers used in the theorems -/

/-- A valid Ollama record text with the four required fields. -/
def oRec (resp : String) (done : Bool) : String :=
  "\x7b\"model\":\"m\",\"created_at\":\"t\",\"response\":\"" ++ resp ++
    "\",\"done\":" ++ (if done then "true" else "false") ++ "\x7d"

/-- A valid Gemini stream record text with one text part. -/
def gRec : String :=
  "\x7b\"candidates\":[\x7b\"content\":\x7b\"role\":\"model\",\"parts\":[\x7b\"text\":\"hi\"\x7d]\x7d,\"index\":0\x7d]\x7d"

/-- Is an Ollama stream event the transport-failure variant? -/
def isNetworkErrO : Except OllamaClientError GenerateResponse → Bool
  | .error (.NetworkError _) => true
  | _ => false

/-- Is a Gemini stream event the transport-failure variant? -/
def isNetworkErrG :
    Except GeminiClientError Gemini.StreamGenerateContentResponse → Bool
  | .error (.NetworkError _) => true
  | _ => false

/-- The event the Ollama line loop builds for one non-empty line: the
`match serde_json::from_str::<GenerateResponse>(line)` of the source. -/
def ollamaLineItem (line : String) :
    Except OllamaClientError GenerateResponse :=
  match ollamaFromStr line with
  | .ok r => .ok r
  | .error e => .error (.ParseError e)

/-- The event the Gemini line loop builds for one processed line. -/
def geminiLineItem (line : String) :
    Except GeminiClientError Gemini.StreamGenerateContentResponse :=
  match geminiFromStr (geminiPayload line) with
  | .ok r => .ok r
  | .error e => .error (.ParseError e)

/-- The merge accumulation of `generate_completion`: the first record,
merged left-to-right with every later one. -/
def mergeAll (r₀ : GenerateResponse) (rest : List GenerateResponse) :
    GenerateResponse :=
  rest.foldl GenerateResponse.merge r₀

/-! ## Pump lemmas -/

/-- A send budget of `none` (live consumer) is preserved by the Ollama
line loop. -/
theorem ollamaLineLoop_none_snd (lines : List String) :
    (ollamaLineLoop lines none).2 = none := by
  induction lines with
  | nil => rfl
  | cons l rest ih =>
    by_cases h : l = "" <;> simp [ollamaLineLoop, h, sendOk, sendDec, ih]

/-- A send budget of `none` is preserved by the Gemini line loop. -/
theorem geminiLineLoop_none_snd (lines : List String) :
    (geminiLineLoop lines none).2 = none := by
  induction lines with
  | nil => rfl
  | cons l rest ih =>
    by_cases h : rustTrim l = ""
    · simp [geminiLineLoop, h, ih]
    · by_cases h2 : rustTrim (geminiPayload l) = "[DONE]" <;>
        simp [geminiLineLoop, h, h2, sendOk, sendDec, ih]

/-- An exhausted send budget stays exhausted and delivers nothing through
the Ollama line loop. -/
theorem ollamaLineLoop_cap0 (lines : List String) :
    ollamaLineLoop lines (some 0) = ([], some 0) := by
  induction lines with
  | nil => rfl
  | cons l rest ih =>
    by_cases h : l = "" <;> simp [ollamaLineLoop, h, sendOk, ih]

/-- An exhausted send budget stays exhausted and delivers nothing through
the Gemini line loop. -/
theorem geminiLineLoop_cap0 (lines : List String) :
    geminiLineLoop lines (some 0) = ([], some 0) := by
  induction lines with
  | nil => rfl
  | cons l rest ih =>
    by_cases h : rustTrim l = ""
    · simp [geminiLineLoop, h, ih]
    · by_cases h2 : rustTrim (geminiPayload l) = "[DONE]" <;>
        simp [geminiLineLoop, h, h2, sendOk, ih]

/-- With the consumer gone (budget 0), the Ollama pump delivers no events
at all. -/
theorem ollamaPump_cap0_events (chunks : List OChunk) :
    (ollamaPump chunks (some 0)).1 = [] := by
  induction chunks with
  | nil => rfl
  | cons c rest ih =>
    cases c with
    | chunk utf8 =>
      cases utf8 with
      | none => simp [ollamaPump, ih]
      | some s => simp [ollamaPump, ollamaLineLoop_cap0, ih]
    | err m => simp [ollamaPump, sendOk]

/-- With the consumer gone (budget 0), the Gemini pump delivers no events
at all. -/
theorem geminiPump_cap0_events (chunks : List GChunk) :
    (geminiPump chunks (some 0)).1 = [] := by
  induction chunks with
  | nil => rfl
  | cons c rest ih =>
    cases c with
    | chunk s => simp [geminiPump, geminiLineLoop_cap0, ih]
    | err m => simp [geminiPump, sendOk]

/-- On an error-free transport the Ollama pump performs one read per chunk,
whatever the consumer's budget: it never stops early. -/
theorem ollamaPump_reads (chunks : List OChunk) (cap : Cap)
    (h : ∀ c ∈ chunks, ∃ u, c = OChunk.chunk u) :
    (ollamaPump chunks cap).2 = chunks.length := by
  induction chunks generalizing cap with
  | nil => rfl
  | cons c rest ih =>
    obtain ⟨u, rfl⟩ := h c (by simp)
    have hrest : ∀ c ∈ rest, ∃ u, c = OChunk.chunk u :=
      fun c hc => h c (by simp [hc])
    cases u with
    | none => simp [ollamaPump, ih _ hrest]
    | some s => simp [ollamaPump, ih _ hrest]

/-- On an error-free transport the Gemini pump performs one read per chunk,
whatever the consumer's budget: it never stops early. -/
theorem geminiPump_reads (chunks : List GChunk) (cap : Cap)
    (h : ∀ c ∈ chunks, ∃ s, c = GChunk.chunk s) :
    (geminiPump chunks cap).2 = chunks.length := by
  induction chunks generalizing cap with
  | nil => rfl
  | cons c rest ih =>
    obtain ⟨s, rfl⟩ := h c (by simp)
    have hrest : ∀ c ∈ rest, ∃ s, c = GChunk.chunk s :=
      fun c hc => h c (by simp [hc])
    simp [geminiPump, ih _ hrest]

/-- The Ollama line loop only ever emits parse results, never the
transport-failure variant. -/
theorem ollamaLineLoop_no_network (lines : List String) (cap : Cap) :
    ∀ x ∈ (ollamaLineLoop lines cap).1, isNetworkErrO x = false := by
  induction lines generalizing cap with
  | nil => simp [ollamaLineLoop]
  | cons l rest ih =>
    intro x hx
    by_cases h : l = ""
    · exact ih cap x (by simpa [ollamaLineLoop, h] using hx)
    · by_cases hs : sendOk cap = true
      · simp only [ollamaLineLoop, h, if_neg h, hs, if_true] at hx
        rcases List.mem_cons.mp hx with rfl | hx'
        · cases he : ollamaFromStr l <;> simp [he, isNetworkErrO]
        · exact ih (sendDec cap) x hx'
      · simp [ollamaLineLoop, h, hs] at hx

/-- The Gemini line loop only ever emits parse results, never the
transport-failure variant. -/
theorem geminiLineLoop_no_network (lines : List String) (cap : Cap) :
    ∀ x ∈ (geminiLineLoop lines cap).1, isNetworkErrG x = false := by
  induction lines generalizing cap with
  | nil => simp [geminiLineLoop]
  | cons l rest ih =>
    intro x hx
    by_cases h : rustTrim l = ""
    · exact ih cap x (by simpa [geminiLineLoop, h] using hx)
    · by_cases hd : rustTrim (geminiPayload l) = "[DONE]"
      · simp [geminiLineLoop, h, hd] at hx
      · by_cases hs : sendOk cap = true
        · simp only [geminiLineLoop, h, if_neg h, hd, if_neg hd, hs,
            if_true] at hx
          rcases List.mem_cons.mp hx with rfl | hx'
          · cases he : geminiFromStr (geminiPayload l) <;>
              simp [he, isNetworkErrG]
          · exact ih (sendDec cap) x hx'
        · simp [geminiLineLoop, h, hd, hs] at hx

/-- Splitting the Ollama pump's run at a transport error: every error-free
chunk before the first transport error is processed as usual (with a live
consumer the budget stays `none`), the error itself contributes exactly one
`NetworkError` event, and nothing after it is read. -/
theorem ollamaPump_err_split (good : List OChunk) (m : String)
    (rest : List OChunk) (h : ∀ c ∈ good, ∃ u, c = OChunk.chunk u) :
    ollamaPump (good ++ OChunk.err m :: rest) none =
      ((ollamaPump good none).1 ++
        [.error (.NetworkError m)], good.length + 1) := by
  induction good with
  | nil => simp [ollamaPump, sendOk]
  | cons c gs ih =>
    obtain ⟨u, rfl⟩ := h c (by simp)
    have hgs : ∀ c ∈ gs, ∃ u, c = OChunk.chunk u :=
      fun c hc => h c (by simp [hc])
    cases u with
    | none =>
      simp only [List.cons_append, ollamaPump]
      simp [ih hgs, Nat.add_comm]
    | some s =>
      rcases hl : ollamaLineLoop (rustLines s) none with ⟨es, cap'⟩
      have hcap : cap' = none := by
        have := ollamaLineLoop_none_snd (rustLines s)
        rw [hl] at this; exact this
      subst hcap
      simp only [List.cons_append, ollamaPump, hl]
      simp [ih hgs, Nat.add_comm]

/-- Splitting the Gemini pump's run at a transport error, as for Ollama. -/
theorem geminiPump_err_split (good : List GChunk) (m : String)
    (rest : List GChunk) (h : ∀ c ∈ good, ∃ s, c = GChunk.chunk s) :
    geminiPump (good ++ GChunk.err m :: rest) none =
      ((geminiPump good none).1 ++
        [.error (.NetworkError m)], good.length + 1) := by
  induction good with
  | nil => simp [geminiPump, sendOk]
  | cons c gs ih =>
    obtain ⟨s, rfl⟩ := h c (by simp)
    have hgs : ∀ c ∈ gs, ∃ s, c = GChunk.chunk s :=
      fun c hc => h c (by simp [hc])
    rcases hl : geminiLineLoop (rustLines s) none with ⟨es, cap'⟩
    have hcap : cap' = none := by
      have := geminiLineLoop_none_snd (rustLines s)
      rw [hl] at this; exact this
    subst hcap
    simp only [List.cons_append, geminiPump, hl]
    simp [ih hgs, Nat.add_comm]

/-- With a live consumer, the events delivered by the Ollama pump on an
error-free transport contain no transport-failure event. -/
theorem ollamaPump_no_network (chunks : List OChunk)
    (h : ∀ c ∈ chunks, ∃ u, c = OChunk.chunk u) :
    ∀ x ∈ (ollamaPump chunks none).1, isNetworkErrO x = false := by
  induction chunks with
  | nil => simp [ollamaPump]
  | cons c rest ih =>
    obtain ⟨u, rfl⟩ := h c (by simp)
    have hrest : ∀ c ∈ rest, ∃ u, c = OChunk.chunk u :=
      fun c hc => h c (by simp [hc])
    intro x hx
    cases u with
    | none => exact ih hrest x (by simpa [ollamaPump] using hx)
    | some s =>
      rcases hl : ollamaLineLoop (rustLines s) none with ⟨es, cap'⟩
      have hcap : cap' = none := by
        have := ollamaLineLoop_none_snd (rustLines s)
        rw [hl] at this; exact this
      subst hcap
      simp only [ollamaPump, hl, List.mem_append] at hx
      rcases hx with hx | hx
      · have := ollamaLineLoop_no_network (rustLines s) none x
        rw [hl] at this; exact this hx
      · exact ih hrest x hx

/-- With a live consumer, the events delivered by the Gemini pump on an
error-free transport contain no transport-failure event. -/
theorem geminiPump_no_network (chunks : List GChunk)
    (h : ∀ c ∈ chunks, ∃ s, c = GChunk.chunk s) :
    ∀ x ∈ (geminiPump chunks none).1, isNetworkErrG x = false := by
  induction chunks with
  | nil => simp [geminiPump]
  | cons c rest ih =>
    obtain ⟨s, rfl⟩ := h c (by simp)
    have hrest : ∀ c ∈ rest, ∃ s, c = GChunk.chunk s :=
      fun c hc => h c (by simp [hc])
    intro x hx
    rcases hl : geminiLineLoop (rustLines s) none with ⟨es, cap'⟩
    have hcap : cap' = none := by
      have := geminiLineLoop_none_snd (rustLines s)
      rw [hl] at this; exact this
    subst hcap
    simp only [geminiPump, hl, List.mem_append] at hx
    rcases hx with hx | hx
    · have := geminiLineLoop_no_network (rustLines s) none x
      rw [hl] at this; exact this hx
    · exact ih hrest x hx

/-- The number of transport reads the Ollama pump performs does not depend
on the consumer's budget: a failed send never stops the chunk loop. -/
theorem ollamaPump_reads_cap_indep (chunks : List OChunk) (c₁ c₂ : Cap) :
    (ollamaPump chunks c₁).2 = (ollamaPump chunks c₂).2 := by
  induction chunks generalizing c₁ c₂ with
  | nil => rfl
  | cons c rest ih =>
    cases c with
    | chunk utf8 =>
      cases utf8 with
      | none => simp [ollamaPump, ih c₁ c₂]
      | some s =>
        rcases h1 : ollamaLineLoop (rustLines s) c₁ with ⟨es1, k1⟩
        rcases h2 : ollamaLineLoop (rustLines s) c₂ with ⟨es2, k2⟩
        simp [ollamaPump, h1, h2, ih k1 k2]
    | err m => simp [ollamaPump]

/-- The number of transport reads the Gemini pump performs does not depend
on the consumer's budget. -/
theorem geminiPump_reads_cap_indep (chunks : List GChunk) (c₁ c₂ : Cap) :
    (geminiPump chunks c₁).2 = (geminiPump chunks c₂).2 := by
  induction chunks generalizing c₁ c₂ with
  | nil => rfl
  | cons c rest ih =>
    cases c with
    | chunk s =>
      rcases h1 : geminiLineLoop (rustLines s) c₁ with ⟨es1, k1⟩
      rcases h2 : geminiLineLoop (rustLines s) c₂ with ⟨es2, k2⟩
      simp [geminiPump, h1, h2, ih k1 k2]
    | err m => simp [geminiPump]

/-! ## Claim theorems -/

/-- C1 (evidence of the code bug): the Ollama pump is not chunk-boundary
independent.  The record `{"model":"m","created_at":"t","response":"x","done":false}`
followed by a newline yields exactly one successful `Partial` event when
delivered in one chunk; the same bytes split into two chunks (the split
falling inside the record) yield two events, neither of which is a
`Partial` — the pump parses each chunk's line fragments separately instead
of buffering the unterminated tail. -/
theorem C1_chunk_boundary_divergence :
    (ollamaPump [OChunk.chunk (some (oRec "x" false ++ "\n"))] none).1 =
        [.ok (mkGR "m" "t" "x" false)] ∧
    (ollamaPump [OChunk.chunk (some "\x7b\"model\":\"m\",\"created_at\":\"t\",\"response\":\"x\""),
        OChunk.chunk (some ",\"done\":false\x7d\n")] none).1.length = 2 ∧
    List.filter exceptIsOk
      (ollamaPump [OChunk.chunk (some "\x7b\"model\":\"m\",\"created_at\":\"t\",\"response\":\"x\""),
        OChunk.chunk (some ",\"done\":false\x7d\n")] none).1 = [] := by
  refine ⟨?_, ?_, ?_⟩ <;> rfl

/-- C2 (evidence of the code bug): after the consumer disconnects (send
budget 0, so the very first `tx.send` fails), both pumps still read the
entire transport: `n + 1` chunks each carrying one record line produce
`n + 1` transport reads and no delivered events, for every `n` — the
`break` on a failed send only leaves the per-chunk line loop, not the
transport loop, so the background work is unbounded. -/
theorem C2_disconnected_consumer_reads (n : Nat) :
    (ollamaPump (List.replicate (n + 1)
        (OChunk.chunk (some (oRec "x" false ++ "\n")))) (some 0)).1 = [] ∧
    (ollamaPump (List.replicate (n + 1)
        (OChunk.chunk (some (oRec "x" false ++ "\n")))) (some 0)).2 = n + 1 ∧
    (geminiPump (List.replicate (n + 1)
        (GChunk.chunk (gRec ++ "\n"))) (some 0)).1 = [] ∧
    (geminiPump (List.replicate (n + 1)
        (GChunk.chunk (gRec ++ "\n"))) (some 0)).2 = n + 1 := by
  refine ⟨ollamaPump_cap0_events _, ?_, geminiPump_cap0_events _, ?_⟩
  · rw [ollamaPump_reads _ _
      (fun c hc => ⟨_, List.eq_of_mem_replicate hc⟩)]
    simp
  · rw [geminiPump_reads _ _
      (fun c hc => ⟨_, List.eq_of_mem_replicate hc⟩)]
    simp

/-- C3 (counterexample): a `Partial` event with `done = true` does not end
the stream.  A chunk holding a `done:true` record followed by a second
chunk holding another record produces two `Partial` events and two
transport reads: the pump keeps requesting bytes after the terminal
record, contradicting the claim that no further bytes are requested and
that the sequence ends after the flagged event. -/
theorem C3_terminal_flag_ignored :
    ollamaPump [OChunk.chunk (some (oRec "a" true ++ "\n")),
        OChunk.chunk (some (oRec "b" false ++ "\n"))] none =
      ([.ok (mkGR "m" "t" "a" true), .ok (mkGR "m" "t" "b" false)], 2) := by
  rfl

/-- C3 (amended): neither pump performs terminal detection; termination is
transport-driven.  On an error-free transport each pump reads every chunk
— one read per chunk, whatever the consumer budget and whatever completion
flags or sentinels the data contains — and the consumer sequence ends when
the transport is exhausted. -/
theorem C3_transport_driven_termination :
    (∀ (chunks : List OChunk) (cap : Cap),
      (∀ c ∈ chunks, ∃ u, c = OChunk.chunk u) →
      (ollamaPump chunks cap).2 = chunks.length) ∧
    (∀ (chunks : List GChunk) (cap : Cap),
      (∀ c ∈ chunks, ∃ s, c = GChunk.chunk s) →
      (geminiPump chunks cap).2 = chunks.length) :=
  ⟨fun chunks cap h => ollamaPump_reads chunks cap h,
   fun chunks cap h => geminiPump_reads chunks cap h⟩

/-- C3 (witness): the amended theorem applied to a transport whose first
chunk carries a `done:true` record (Ollama) or a sentinel (Gemini): both
chunks are read. -/
theorem C3_transport_driven_termination_witness :
    (ollamaPump [OChunk.chunk (some (oRec "a" true ++ "\n")),
        OChunk.chunk (some (oRec "b" false ++ "\n"))] none).2 = 2 ∧
    (geminiPump [GChunk.chunk "data: [DONE]\n",
        GChunk.chunk (gRec ++ "\n")] none).2 = 2 := by
  constructor
  · have h := C3_transport_driven_termination.1
      [OChunk.chunk (some (oRec "a" true ++ "\n")),
       OChunk.chunk (some (oRec "b" false ++ "\n"))] none
      (by intro c hc; simp only [List.mem_cons, List.mem_singleton,
        List.not_mem_nil, or_false] at hc
          rcases hc with rfl | rfl <;> exact ⟨_, rfl⟩)
    simpa using h
  · have h := C3_transport_driven_termination.2
      [GChunk.chunk "data: [DONE]\n", GChunk.chunk (gRec ++ "\n")] none
      (by intro c hc; simp only [List.mem_cons, List.mem_singleton,
        List.not_mem_nil, or_false] at hc
          rcases hc with rfl | rfl <;> exact ⟨_, rfl⟩)
    simpa using h

/-- C4 (counterexample): the sentinel does not stop the transport.  A
chunk `"data: [DONE]\n"` followed by a chunk holding a valid record
produces one `Partial` event (for the record *after* the sentinel) and two
transport reads — further bytes are requested after the sentinel,
contradicting the claim's final clause. -/
theorem C4_sentinel_not_terminal :
    geminiPump [GChunk.chunk "data: [DONE]\n",
        GChunk.chunk (gRec ++ "\n")] none =
      ([.ok (mkSGCR "model" "hi" 0)], 2) := by
  rfl

/-- C4 (amended): a line whose payload (after stripping the `"data: "`
envelope) trims to `[DONE]` is recognized before any JSON decoding: the
line loop stops at it, emitting nothing for that line nor for the
remaining lines of the current chunk (in particular no `Malformed` event);
but the pump still requests the following chunks from the transport — a
chunk always costs exactly one read and the remaining chunks are processed
as usual. -/
theorem C4_sentinel_line_handling :
    (∀ (l : String) (post : List String) (cap : Cap),
      rustTrim l ≠ "" → rustTrim (geminiPayload l) = "[DONE]" →
      geminiLineLoop (l :: post) cap = ([], cap)) ∧
    (∀ (s : String) (rest : List GChunk) (cap : Cap),
      (geminiPump (GChunk.chunk s :: rest) cap).2 =
        (geminiPump rest cap).2 + 1) := by
  constructor
  · intro l post cap h1 h2
    simp [geminiLineLoop, h1, h2]
  · intro s rest cap
    rcases hl : geminiLineLoop (rustLines s) cap with ⟨es, cap'⟩
    simp [geminiPump, hl, geminiPump_reads_cap_indep rest cap' cap]

/-- C4 (witness): the amended theorem at the sentinel line
`"data: [DONE]"` followed by a record line, and at a sentinel chunk
followed by a record chunk. -/
theorem C4_sentinel_line_handling_witness :
    geminiLineLoop ["data: [DONE]", gRec] none = ([], none) ∧
    (geminiPump [GChunk.chunk "data: [DONE]\n",
        GChunk.chunk (gRec ++ "\n")] none).2 =
      (geminiPump [GChunk.chunk (gRec ++ "\n")] none).2 + 1 :=
  ⟨C4_sentinel_line_handling.1 "data: [DONE]" [gRec] none (by decide) (by rfl),
   C4_sentinel_line_handling.2 "data: [DONE]\n"
     [GChunk.chunk (gRec ++ "\n")] none⟩

/-- C5: per-record error isolation.  For either pump, a chunk whose lines
are a valid record, a malformed non-blank line, and another valid record
yields exactly `Partial, Malformed, Partial` in that order, and the stream
does not terminate early (for Gemini the lines must not be the sentinel,
which is recognized before parsing). -/
theorem C5_per_record_error_isolation :
    (∀ (s l₁ l₂ l₃ : String) (v₁ v₃ : GenerateResponse) (e : String),
      rustLines s = [l₁, l₂, l₃] →
      l₁ ≠ "" → l₂ ≠ "" → l₃ ≠ "" →
      ollamaFromStr l₁ = .ok v₁ → ollamaFromStr l₂ = .error e →
      ollamaFromStr l₃ = .ok v₃ →
      ollamaPump [OChunk.chunk (some s)] none =
        ([.ok v₁, .error (.ParseError e), .ok v₃], 1)) ∧
    (∀ (s l₁ l₂ l₃ : String)
      (w₁ w₃ : Gemini.StreamGenerateContentResponse) (e : String),
      rustLines s = [l₁, l₂, l₃] →
      rustTrim l₁ ≠ "" → rustTrim l₂ ≠ "" → rustTrim l₃ ≠ "" →
      rustTrim (geminiPayload l₁) ≠ "[DONE]" →
      rustTrim (geminiPayload l₂) ≠ "[DONE]" →
      rustTrim (geminiPayload l₃) ≠ "[DONE]" →
      geminiFromStr (geminiPayload l₁) = .ok w₁ →
      geminiFromStr (geminiPayload l₂) = .error e →
      geminiFromStr (geminiPayload l₃) = .ok w₃ →
      geminiPump [GChunk.chunk s] none =
        ([.ok w₁, .error (.ParseError e), .ok w₃], 1)) := by
  constructor
  · intro s l₁ l₂ l₃ v₁ v₃ e hs h1 h2 h3 p1 p2 p3
    simp [ollamaPump, hs, ollamaLineLoop, h1, h2, h3, p1, p2, p3,
      sendOk, sendDec]
  · intro s l₁ l₂ l₃ w₁ w₃ e hs h1 h2 h3 d1 d2 d3 p1 p2 p3
    simp [geminiPump, hs, geminiLineLoop, h1, h2, h3, d1, d2, d3,
      p1, p2, p3, sendOk, sendDec]

/-- C5 (witness): a concrete single chunk `valid \n not json \n valid \n`
for each provider. -/
theorem C5_per_record_error_isolation_witness :
    ollamaPump [OChunk.chunk (some (oRec "a" false ++ "\nnot json\n" ++
        oRec "b" true ++ "\n"))] none =
      ([.ok (mkGR "m" "t" "a" false),
        .error (.ParseError "unexpected character"),
        .ok (mkGR "m" "t" "b" true)], 1) ∧
    geminiPump [GChunk.chunk (gRec ++ "\ndata: not json\n" ++ gRec ++ "\n")]
        none =
      ([.ok (mkSGCR "model" "hi" 0),
        .error (.ParseError "unexpected character"),
        .ok (mkSGCR "model" "hi" 0)], 1) :=
  ⟨C5_per_record_error_isolation.1 _
      (oRec "a" false) "not json" (oRec "b" true) _ _ _
      (by rfl) (by decide) (by decide) (by decide) (by rfl) (by rfl) (by rfl),
   C5_per_record_error_isolation.2 _
      gRec "data: not json" gRec _ _ _
      (by rfl) (by decide) (by decide) (by decide)
      (by decide) (by decide) (by decide) (by rfl) (by rfl) (by rfl)⟩

/-- C6: a transport-level failure is fatal and final.  For either pump
with a live consumer, if the byte source errors after a prefix of
error-free chunks, the delivered sequence is exactly the events of that
prefix followed by one `TransportFailure` (`NetworkError`) event — which
no prefix event can be — the number of transport reads is the prefix
length plus one (so nothing after the failure is ever requested or
retried), and then the sequence ends. -/
theorem C6_transport_failure_fatal :
    (∀ (good : List OChunk) (m : String) (rest : List OChunk),
      (∀ c ∈ good, ∃ u, c = OChunk.chunk u) →
      ollamaPump (good ++ OChunk.err m :: rest) none =
        ((ollamaPump good none).1 ++
          [.error (.NetworkError m)], good.length + 1) ∧
      (∀ x ∈ (ollamaPump good none).1, isNetworkErrO x = false)) ∧
    (∀ (good : List GChunk) (m : String) (rest : List GChunk),
      (∀ c ∈ good, ∃ s, c = GChunk.chunk s) →
      geminiPump (good ++ GChunk.err m :: rest) none =
        ((geminiPump good none).1 ++
          [.error (.NetworkError m)], good.length + 1) ∧
      (∀ x ∈ (geminiPump good none).1, isNetworkErrG x = false)) :=
  ⟨fun good m rest h =>
    ⟨ollamaPump_err_split good m rest h, ollamaPump_no_network good h⟩,
   fun good m rest h =>
    ⟨geminiPump_err_split good m rest h, geminiPump_no_network good h⟩⟩

/-- C6 (witness): one good chunk, then a transport error, then an unread
chunk, for each provider. -/
theorem C6_transport_failure_fatal_witness :
    ollamaPump [OChunk.chunk (some (oRec "a" false ++ "\n")),
        OChunk.err "connection reset",
        OChunk.chunk (some (oRec "b" false ++ "\n"))] none =
      ([.ok (mkGR "m" "t" "a" false),
        .error (.NetworkError "connection reset")], 2) ∧
    geminiPump [GChunk.chunk (gRec ++ "\n"),
        GChunk.err "connection reset",
        GChunk.chunk (gRec ++ "\n")] none =
      ([.ok (mkSGCR "model" "hi" 0),
        .error (.NetworkError "connection reset")], 2) := by
  constructor
  · have h := (C6_transport_failure_fatal.1
      [OChunk.chunk (some (oRec "a" false ++ "\n"))] "connection reset"
      [OChunk.chunk (some (oRec "b" false ++ "\n"))]
      (by intro c hc; simp only [List.mem_singleton] at hc
          exact ⟨_, hc⟩)).1
    rw [show ([OChunk.chunk (some (oRec "a" false ++ "\n")),
        OChunk.err "connection reset",
        OChunk.chunk (some (oRec "b" false ++ "\n"))] : List OChunk) =
      [OChunk.chunk (some (oRec "a" false ++ "\n"))] ++
        OChunk.err "connection reset" ::
          [OChunk.chunk (some (oRec "b" false ++ "\n"))] from rfl, h]
    rfl
  · have h := (C6_transport_failure_fatal.2
      [GChunk.chunk (gRec ++ "\n")] "connection reset"
      [GChunk.chunk (gRec ++ "\n")]
      (by intro c hc; simp only [List.mem_singleton] at hc
          exact ⟨_, hc⟩)).1
    rw [show ([GChunk.chunk (gRec ++ "\n"),
        GChunk.err "connection reset",
        GChunk.chunk (gRec ++ "\n")] : List GChunk) =
      [GChunk.chunk (gRec ++ "\n")] ++
        GChunk.err "connection reset" ::
          [GChunk.chunk (gRec ++ "\n")] from rfl, h]
    rfl

/-- C7 (counterexample): a whitespace-only (but non-empty) line is NOT
dropped silently by the Ollama pump: the chunk `"  \n"` produces exactly
one event, and it is not a `Partial` — the line is passed to the record
parser and surfaces as a `Malformed` event, contradicting the claim that
such lines produce no event. -/
theorem C7_whitespace_line_not_dropped :
    (ollamaPump [OChunk.chunk (some "  \n")] none).1.length = 1 ∧
    List.filter exceptIsOk
      (ollamaPump [OChunk.chunk (some "  \n")] none).1 = [] := by
  exact ⟨rfl, rfl⟩

/-- C7 (amended): the Ollama line loop drops exactly-empty lines silently,
but passes a whitespace-only non-empty line to the parser, where it fails
and yields a `Malformed` event; the Gemini line loop drops every line that
trims to empty (whitespace-only included) silently. -/
theorem C7_blank_line_handling :
    (∀ (rest : List String) (cap : Cap),
      ollamaLineLoop ("" :: rest) cap = ollamaLineLoop rest cap) ∧
    (∀ (l : String) (rest : List String) (cap : Cap), rustTrim l = "" →
      geminiLineLoop (l :: rest) cap = geminiLineLoop rest cap) ∧
    (∀ (l : String) (rest : List String) (e : String), l ≠ "" →
      ollamaFromStr l = .error e →
      (ollamaLineLoop (l :: rest) none).1 =
        .error (.ParseError e) :: (ollamaLineLoop rest none).1) := by
  refine ⟨?_, ?_, ?_⟩
  · intro rest cap
    simp [ollamaLineLoop]
  · intro l rest cap h
    simp [geminiLineLoop, h]
  · intro l rest e h he
    rcases hl : ollamaLineLoop rest none with ⟨es, cap'⟩
    simp [ollamaLineLoop, h, he, sendOk, sendDec, hl]

/-- C7 (witness): the amended theorem at an empty line, a single-space
line, and the two-space line. -/
theorem C7_blank_line_handling_witness :
    ollamaLineLoop [""] none = ollamaLineLoop [] none ∧
    geminiLineLoop [" "] none = geminiLineLoop [] none ∧
    (ollamaLineLoop ["  "] none).1 = [.error (.ParseError "eof")] := by
  refine ⟨C7_blank_line_handling.1 [] none,
    C7_blank_line_handling.2.1 " " [] none (by rfl), ?_⟩
  have h := C7_blank_line_handling.2.2 "  " [] "eof" (by decide) (by rfl)
  simpa [ollamaLineLoop] using h

/-- C8: parsing is pure, deterministic and idempotent.  Decoding the same
record text against the provider schema twice yields equal outcomes, and a
line occurring twice in the stream yields two equal events, each fully
determined by the unaltered line text through the one parse the loop
performs (`ollamaLineItem` / `geminiLineItem` are exactly the `match` on
`serde_json::from_str` in the source). -/
theorem C8_parsing_pure_idempotent :
    (∀ s : String,
      ollamaFromStr s = ollamaFromStr s ∧ geminiFromStr s = geminiFromStr s) ∧
    (∀ l : String, l ≠ "" →
      (ollamaLineLoop [l, l] none).1 = [ollamaLineItem l, ollamaLineItem l]) ∧
    (∀ l : String, rustTrim l ≠ "" → rustTrim (geminiPayload l) ≠ "[DONE]" →
      (geminiLineLoop [l, l] none).1 =
        [geminiLineItem l, geminiLineItem l]) := by
  refine ⟨fun s => ⟨rfl, rfl⟩, ?_, ?_⟩
  · intro l h
    cases he : ollamaFromStr l <;>
      simp [ollamaLineLoop, h, he, sendOk, sendDec, ollamaLineItem]
  · intro l h hd
    cases he : geminiFromStr (geminiPayload l) <;>
      simp [geminiLineLoop, h, hd, he, sendOk, sendDec, geminiLineItem]

/-- C8 (witness): the idempotence theorem at a concrete valid record line
for each provider. -/
theorem C8_parsing_pure_idempotent_witness :
    (ollamaLineLoop [oRec "x" false, oRec "x" false] none).1 =
      [ollamaLineItem (oRec "x" false), ollamaLineItem (oRec "x" false)] ∧
    (geminiLineLoop [gRec, gRec] none).1 =
      [geminiLineItem gRec, geminiLineItem gRec] :=
  ⟨C8_parsing_pure_idempotent.2.1 (oRec "x" false) (by decide),
   C8_parsing_pure_idempotent.2.2 gRec (by decide) (by decide)⟩

/-- C9: handshake failure yields an immediate error.  For both streaming
entry points: a network-level send failure returns `NetworkError`
immediately; a response with a non-success status returns
`RequestError(body)` immediately and no consumer-facing sequence exists;
a success status returns the live sequence over the response's byte
stream. -/
theorem C9_handshake_immediate_error :
    (∀ (m : String),
      stream_completion_start (.netFail m) = .error (.NetworkError m)) ∧
    (∀ (body : String) (chunks : List OChunk),
      stream_completion_start (.response false body chunks) =
        .error (.RequestError body)) ∧
    (∀ (body : String) (chunks : List OChunk),
      stream_completion_start (.response true body chunks) = .ok chunks) ∧
    (∀ (m : String),
      stream_content_with_request_start (.netFail m) =
        .error (.NetworkError m)) ∧
    (∀ (body : String) (chunks : List GChunk),
      stream_content_with_request_start (.response false body chunks) =
        .error (.RequestError body)) ∧
    (∀ (body : String) (chunks : List GChunk),
      stream_content_with_request_start (.response true body chunks) =
        .ok chunks) :=
  ⟨fun _ => rfl, fun _ _ => rfl, fun _ _ => rfl,
   fun _ => rfl, fun _ _ => rfl, fun _ _ => rfl⟩

/-! ## Merge lemmas for the non-streaming path -/

/-- Folding `merge` never changes the `model` field: it comes from the
first record. -/
theorem foldl_merge_model (rest : List GenerateResponse) :
    ∀ a : GenerateResponse,
      (rest.foldl GenerateResponse.merge a).model = a.model := by
  induction rest with
  | nil => intro a; rfl
  | cons b t ih =>
    intro a
    simpa [GenerateResponse.merge] using ih (a.merge b)

/-- Folding `merge` never changes the `created_at` field. -/
theorem foldl_merge_created_at (rest : List GenerateResponse) :
    ∀ a : GenerateResponse,
      (rest.foldl GenerateResponse.merge a).created_at = a.created_at := by
  induction rest with
  | nil => intro a; rfl
  | cons b t ih =>
    intro a
    simpa [GenerateResponse.merge] using ih (a.merge b)

/-- Folding `merge` concatenates the `response` fields in order. -/
theorem foldl_merge_response (rest : List GenerateResponse) :
    ∀ a : GenerateResponse,
      (rest.foldl GenerateResponse.merge a).response =
        rest.foldl (fun acc r => acc ++ r.response) a.response := by
  induction rest with
  | nil => intro a; rfl
  | cons b t ih =>
    intro a
    simpa [GenerateResponse.merge] using ih (a.merge b)

/-- Folding `merge` takes the `done` flag of the last record. -/
theorem foldl_merge_done (rest : List GenerateResponse) :
    ∀ a : GenerateResponse,
      (rest.foldl GenerateResponse.merge a).done = (rest.getLastD a).done := by
  induction rest with
  | nil => intro a; rfl
  | cons b t ih =>
    intro a
    rw [List.foldl_cons, ih (a.merge b), List.getLastD_cons]
    cases t with
    | nil => simp [GenerateResponse.merge]
    | cons c t' => rw [List.getLastD_cons, List.getLastD_cons]

/-- If every line parses to the matching record, the accumulation loop of
`generate_completion` folds them with `merge` from the accumulator. -/
theorem generateFold_ok :
    ∀ (ls : List String) (rs : List GenerateResponse),
      List.Forall₂ (fun l r => ollamaFromStr l = .ok r) ls rs →
      ∀ a : GenerateResponse,
        generateFold ls (some a) =
          .ok (some (rs.foldl GenerateResponse.merge a)) := by
  intro ls rs h
  induction h with
  | nil => intro a; rfl
  | cons hlr _ ih =>
    intro a
    simp [generateFold, hlr, ih]

/-- C10: the non-streaming `generate_completion` merge.  When every line
of a successful response body parses as a `GenerateResponse` (with at
least one line), the call returns the merge of all records: its `response`
is the in-order concatenation of all `response` fields, its `done` flag is
the last record's, and its `model` and `created_at` come from the first
record.  A body with no lines, or whose first line fails to parse (so in
particular any body with zero valid records), returns a `ParseError`. -/
theorem C10_generate_completion_merge :
    (∀ (body : String) (r₀ : GenerateResponse) (rest : List GenerateResponse),
      List.Forall₂ (fun l r => ollamaFromStr l = .ok r)
        (rustLines body) (r₀ :: rest) →
      generate_completion_body body = .ok (mergeAll r₀ rest) ∧
      (mergeAll r₀ rest).response =
        (r₀ :: rest).foldl (fun acc r => acc ++ r.response) "" ∧
      (mergeAll r₀ rest).done = (rest.getLastD r₀).done ∧
      (mergeAll r₀ rest).model = r₀.model ∧
      (mergeAll r₀ rest).created_at = r₀.created_at) ∧
    (∀ body : String, rustLines body = [] →
      generate_completion_body body =
        .error (.ParseError "No valid JSON objects found in response")) ∧
    (∀ (body l : String) (ls : List String) (e : String),
      rustLines body = l :: ls → ollamaFromStr l = .error e →
      generate_completion_body body = .error (.ParseError e)) := by
  refine ⟨?_, ?_, ?_⟩
  · intro body r₀ rest h
    generalize hL : rustLines body = L at h
    cases h with
    | cons hlr htail =>
      constructor
      · unfold generate_completion_body
        rw [hL]
        simp [generateFold, hlr, generateFold_ok _ _ htail r₀, mergeAll]
      · refine ⟨?_, foldl_merge_done rest r₀, foldl_merge_model rest r₀,
          foldl_merge_created_at rest r₀⟩
        rw [mergeAll, foldl_merge_response rest r₀, List.foldl_cons]
        have : ("" : String) ++ r₀.response = r₀.response := by
          simp
        rw [this]
  · intro body h
    unfold generate_completion_body
    rw [h]
    rfl
  · intro body l ls e h he
    unfold generate_completion_body
    rw [h]
    simp [generateFold, he]

/-- C10 (witness): the body `r("Hel",false) \n r("lo",true) \n` merges to
one record with `response = "Hello"`, `done = true`, and the first
record's `model` and `created_at`; the empty body and a body whose line is
not JSON yield `ParseError`. -/
theorem C10_generate_completion_merge_witness :
    generate_completion_body (oRec "Hel" false ++ "\n" ++
        oRec "lo" true ++ "\n") =
      .ok (mergeAll (mkGR "m" "t" "Hel" false) [mkGR "m" "t" "lo" true]) ∧
    (mergeAll (mkGR "m" "t" "Hel" false) [mkGR "m" "t" "lo" true]).response =
      "Hello" ∧
    (mergeAll (mkGR "m" "t" "Hel" false) [mkGR "m" "t" "lo" true]).done =
      true ∧
    generate_completion_body "" =
      .error (.ParseError "No valid JSON objects found in response") ∧
    generate_completion_body "not json\n" =
      .error (.ParseError "unexpected character") := by
  have h := C10_generate_completion_merge.1
    (oRec "Hel" false ++ "\n" ++ oRec "lo" true ++ "\n")
    (mkGR "m" "t" "Hel" false) [mkGR "m" "t" "lo" true]
    (List.Forall₂.cons rfl (List.Forall₂.cons rfl List.Forall₂.nil))
  have h2 := C10_generate_completion_merge.2.1 "" (by rfl)
  have h3 := C10_generate_completion_merge.2.2 "not json\n" "not json" []
    "unexpected character" (by rfl) (by rfl)
  exact ⟨h.1, by rfl, by rfl, h2, h3⟩
